import Mathlib

/-!
Verification of the browser-driven debate system's core algorithms, shallowly
embedded from the Python sources (`src/playwright_client.py`, `src/uc_client.py`,
`src/triage.py`).

Texts polled from the page are Python `str` values; they are embedded as Lean
`String`, with Python's `len` as `String.length` and the slice
`current_text[len(last_text):]` as `String.drop`.
-/

/-! ## Streaming loop (`LLMClient._stream_response`)

Both clients run the same poll loop (playwright_client.py lines 351-394,
uc_client.py lines 203-245): each tick they check elapsed time against the
timeout, read the current response text from the page, emit a chunk callback
on strict growth, track a stability counter, and exit on a completion signal,
on stability, or on timeout.  Wall-clock time is embedded as the tick count:
the list of `Poll`s is the sequence of (polled text, completion-check result)
pairs observed at the ticks that happen before the timeout expires, and
exhausting the list is exactly the `elapsed > timeout` exit.  The stability
threshold (30 in the playwright variant, 20 in the uc variant) is kept as a
parameter `thr`. -/

/-- One tick's observation: the text read from the response container
(`current_text`) and what `_check_response_complete` / `_is_response_complete`
returns at that tick. -/
structure Poll where
  text : String
  complete : Bool
deriving DecidableEq, Repr

/-- The loop's mutable state: `last_text` and `stable_count`. -/
structure StreamSt where
  lastText : String
  stableCount : Nat
deriving DecidableEq, Repr

/-- Embedding of the `while True` body of `_stream_response`.  Returns the
result (`some text` for a `return`, `none` for raising `ResponseTimeoutError`)
together with the list of chunks passed to `on_chunk`, in order.  The callback
is taken to be provided (`on_chunk` non-None). -/
def streamLoop (thr : Nat) : List Poll → StreamSt → Option String × List String
  | [], st =>
    -- elapsed > timeout: return partial text if any, else raise ResponseTimeoutError
    (if st.lastText = "" then none else some st.lastText, [])
  | p :: rest, st =>
    if p.text = "" then
      -- falsy current_text: nothing happens this tick
      streamLoop thr rest st
    else
      -- current_text != last_text: emit on strict growth, update last_text
      let st' : StreamSt :=
        if p.text = st.lastText then ⟨st.lastText, st.stableCount + 1⟩ else ⟨p.text, 0⟩
      let chunks : List String :=
        if p.text ≠ st.lastText ∧ st.lastText.length < p.text.length then
          (if p.text.drop st.lastText.length = "" then []
           else [p.text.drop st.lastText.length])
        else []
      if p.complete then (some st'.lastText, chunks)
      else if thr < st'.stableCount ∧ st'.lastText ≠ "" then (some st'.lastText, chunks)
      else
        let r := streamLoop thr rest st'
        (r.1, chunks ++ r.2)

/-- The chunk deltas the loop body emits over a sequence of polled texts,
starting from `last_text = l`: one suffix delta per tick whose text is
non-empty and strictly longer than the running `last_text`. -/
def chunkDeltas (l : String) : List String → List String
  | [] => []
  | t :: ts =>
    if t = "" then chunkDeltas l ts
    else if l.length < t.length then
      (if t.drop l.length = "" then [] else [t.drop l.length]) ++ chunkDeltas t ts
    else chunkDeltas t ts

/-- Number of strict-growth ticks over a sequence of polled texts starting
from `last_text = l`: ticks with non-empty text strictly longer than the
running `last_text`. -/
def growthCount (l : String) : List String → Nat
  | [] => 0
  | t :: ts =>
    if t = "" then growthCount l ts
    else if l.length < t.length then growthCount t ts + 1
    else growthCount t ts

/-- The running `last_text` after processing a sequence of polled texts:
empty polls are skipped, every non-empty poll replaces it. -/
def lastNE (l : String) : List String → String
  | [] => l
  | t :: ts => lastNE (if t = "" then l else t) ts

/-- One string extends another by a (possibly empty) suffix. -/
def TextExt (a b : String) : Prop := ∃ s, b = a ++ s

/-- A sequence of polled texts in which each value extends the previous one
(and the first extends `l`). -/
def Chain (l : String) : List String → Prop
  | [] => True
  | t :: ts => TextExt l t ∧ Chain t ts

/-- Helper: two strings with equal data are equal. -/
theorem strExt {a b : String} (h : a.data = b.data) : a = b :=
  congrArg String.mk h

theorem strDrop_append (a b : String) : (a ++ b).drop a.length = b := by
  apply strExt
  rw [String.data_drop, String.data_append]
  exact List.drop_left a.data b.data

theorem strLen_append (a b : String) : (a ++ b).length = a.length + b.length :=
  String.length_append a b

theorem strEmpty_of_append_eq_empty {a b : String} (h : a ++ b = "") : a = "" := by
  have hd : (a ++ b).data = [] := by rw [h]
  rw [String.data_append, List.append_eq_nil] at hd
  exact strExt (by rw [hd.1])

instance (a b : String) : Decidable (TextExt a b) :=
  decidable_of_iff (a ++ b.drop a.length = b)
    ⟨fun h => ⟨b.drop a.length, h.symm⟩,
     fun ⟨s, hs⟩ => by subst hs; rw [strDrop_append]⟩

instance instDecChain : ∀ (l : String) (ts : List String), Decidable (Chain l ts)
  | _, [] => .isTrue trivial
  | l, t :: ts =>
    haveI : Decidable (Chain t ts) := instDecChain t ts
    inferInstanceAs (Decidable (TextExt l t ∧ Chain t ts))

theorem strLen_data (s : String) : s.length = s.data.length := rfl

theorem strDrop_ne_empty {l t : String} (h : l.length < t.length) :
    t.drop l.length ≠ "" := by
  intro he
  have hd : (t.drop l.length).data = [] := by rw [he]
  rw [String.data_drop] at hd
  have hle : t.data.length ≤ l.length := List.drop_eq_nil_iff.mp hd
  rw [strLen_data l, strLen_data t] at h
  rw [strLen_data l] at hle
  omega

theorem strLen_eq_zero {s : String} (h : s.length = 0) : s = "" := by
  apply strExt
  rw [strLen_data] at h
  simpa using List.length_eq_zero.mp h

theorem strJoin_nil : String.join [] = "" := rfl

theorem strJoin_cons (a : String) (ss : List String) :
    String.join (a :: ss) = a ++ String.join ss := by
  apply strExt
  simp [String.data_join, String.data_append]

/-- In a prefix-extension chain, an extension of equal or smaller length is
equal to what it extends. -/
theorem textExt_eq_of_le {l t : String} (h : TextExt l t) (hle : t.length ≤ l.length) :
    t = l := by
  obtain ⟨s, hs⟩ := h
  subst hs
  have : s.length = 0 := by
    have := strLen_append l s
    omega
  rw [strLen_eq_zero this, String.append_empty]

/-- The number of deltas emitted equals the number of strict-growth ticks. -/
theorem chunkDeltas_length (l : String) (ts : List String) :
    (chunkDeltas l ts).length = growthCount l ts := by
  induction ts generalizing l with
  | nil => rfl
  | cons t ts ih =>
    by_cases ht : t = ""
    · simp [chunkDeltas, growthCount, ht, ih]
    · by_cases hlt : l.length < t.length
      · simp [chunkDeltas, growthCount, ht, hlt, strDrop_ne_empty hlt, ih]
      · simp [chunkDeltas, growthCount, ht, hlt, ih]

/-- Over a prefix-extension chain, concatenating the initial text with all
emitted deltas reconstructs the final text: no characters duplicated or
dropped. -/
theorem chunkDeltas_join (l : String) (ts : List String) (hc : Chain l ts) :
    l ++ String.join (chunkDeltas l ts) = lastNE l ts := by
  induction ts generalizing l with
  | nil => simp [chunkDeltas, lastNE, strJoin_nil, String.append_empty]
  | cons t ts ih =>
    obtain ⟨⟨s, hs⟩, hrest⟩ := hc
    by_cases ht : t = ""
    · have hl : l = "" := strEmpty_of_append_eq_empty (a := l) (b := s) (by rw [← hs, ht])
      have hlt : l = t := by rw [hl, ht]
      subst hlt
      simpa [chunkDeltas, lastNE, ht] using ih l hrest
    · by_cases hlt : l.length < t.length
      · have hd : t.drop l.length ≠ "" := strDrop_ne_empty hlt
        have hnc : l ++ t.drop l.length = t := by
          conv_rhs => rw [hs]
          rw [hs, strDrop_append]
        simp only [chunkDeltas, lastNE, if_neg ht, if_pos hlt, if_neg hd,
          List.singleton_append, strJoin_cons, ← String.append_assoc, hnc]
        exact ih t hrest
      · have ht_eq : t = l := textExt_eq_of_le ⟨s, hs⟩ (Nat.le_of_not_lt hlt)
        rw [show chunkDeltas l (t :: ts) = chunkDeltas t ts by simp [chunkDeltas, ht, hlt]]
        rw [show lastNE l (t :: ts) = lastNE t ts by simp [lastNE, ht]]
        rw [ht_eq]
        exact ih l (ht_eq ▸ hrest)

/-- Full-run characterization of the streaming loop: when no tick signals
completion and the stability threshold cannot be reached within the tick
budget, the loop consumes every poll, emits exactly the strict-growth deltas,
and exits through the timeout branch (partial text if any was observed,
`ResponseTimeoutError` otherwise). -/
theorem streamLoop_full (thr : Nat) (polls : List Poll) (st : StreamSt)
    (hc : ∀ p ∈ polls, p.complete = false)
    (hb : st.stableCount + polls.length ≤ thr) :
    streamLoop thr polls st =
      (if lastNE st.lastText (polls.map Poll.text) = "" then none
       else some (lastNE st.lastText (polls.map Poll.text)),
       chunkDeltas st.lastText (polls.map Poll.text)) := by
  induction polls generalizing st with
  | nil => simp [streamLoop, lastNE, chunkDeltas]
  | cons p rest ih =>
    have hcp : p.complete = false := hc p (List.mem_cons_self p rest)
    have hcr : ∀ q ∈ rest, q.complete = false := fun q hq => hc q (List.mem_cons_of_mem p hq)
    by_cases hpt : p.text = ""
    · have hb' : st.stableCount + rest.length ≤ thr := by
        simp only [List.length_cons] at hb; omega
      simp only [streamLoop, if_pos hpt, List.map_cons, lastNE, chunkDeltas, hpt,
        if_pos rfl]
      simpa [hpt] using ih st hcr hb'
    · by_cases heq : p.text = st.lastText
      · have hnst : ¬ (thr < st.stableCount + 1 ∧ st.lastText ≠ "") := by
          simp only [List.length_cons] at hb
          intro h
          omega
        have hchunks : ¬ (p.text ≠ st.lastText ∧ st.lastText.length < p.text.length) := by
          intro h; exact h.1 heq
        have hb' : st.stableCount + 1 + rest.length ≤ thr := by
          simp only [List.length_cons] at hb; omega
        simp only [streamLoop, if_neg hpt, if_pos heq, if_neg hchunks, hcp,
          Bool.false_eq_true, if_false, if_neg hnst, List.nil_append]
        rw [ih ⟨st.lastText, st.stableCount + 1⟩ hcr hb']
        simp [lastNE, chunkDeltas, hpt, heq]
      · have hb' : 0 + rest.length ≤ thr := by
          simp only [List.length_cons] at hb; omega
        have hnst : ¬ (thr < (0 : Nat) ∧ p.text ≠ "") := by intro h; omega
        by_cases hlt : st.lastText.length < p.text.length
        · have hchunks : p.text ≠ st.lastText ∧ st.lastText.length < p.text.length :=
            ⟨heq, hlt⟩
          have hd : p.text.drop st.lastText.length ≠ "" := strDrop_ne_empty hlt
          simp only [streamLoop, if_neg hpt, if_neg heq, if_pos hchunks, if_neg hd, hcp,
            Bool.false_eq_true, if_false, if_neg hnst]
          rw [ih ⟨p.text, 0⟩ hcr hb']
          simp [lastNE, chunkDeltas, hpt, hlt, hd]
        · have hchunks : ¬ (p.text ≠ st.lastText ∧ st.lastText.length < p.text.length) := by
            intro h; exact hlt h.2
          simp only [streamLoop, if_neg hpt, if_neg heq, if_neg hchunks, hcp,
            Bool.false_eq_true, if_false, if_neg hnst, List.nil_append]
          rw [ih ⟨p.text, 0⟩ hcr hb']
          simp [lastNE, chunkDeltas, hpt, hlt]

/-- Result invariant of the streaming loop: a `none` result (raised
`ResponseTimeoutError`) means no text was ever observed, and a returned text is
non-empty and was either the initial `last_text` or one of the polled texts. -/
theorem streamLoop_res_spec (thr : Nat) (polls : List Poll) (st : StreamSt) :
    ((streamLoop thr polls st).1 = none → st.lastText = "" ∧ ∀ p ∈ polls, p.text = "") ∧
    (∀ f, (streamLoop thr polls st).1 = some f →
      f ≠ "" ∧ (f = st.lastText ∨ ∃ p ∈ polls, p.text = f)) := by
  induction polls generalizing st with
  | nil =>
    constructor
    · intro h
      by_cases hl : st.lastText = "" <;> simp [streamLoop, hl] at h ⊢
    · intro f hf
      by_cases hl : st.lastText = "" <;> simp [streamLoop, hl] at hf
      exact ⟨hf ▸ hl, Or.inl hf.symm⟩
  | cons p rest ih =>
    by_cases hpt : p.text = ""
    · constructor
      · intro h
        rw [show streamLoop thr (p :: rest) st = streamLoop thr rest st by
          simp [streamLoop, hpt]] at h
        exact ⟨((ih st).1 h).1, by
          intro q hq
          rcases List.mem_cons.mp hq with hq | hq
          · rw [hq]; exact hpt
          · exact ((ih st).1 h).2 q hq⟩
      · intro f hf
        rw [show streamLoop thr (p :: rest) st = streamLoop thr rest st by
          simp [streamLoop, hpt]] at hf
        have := (ih st).2 f hf
        exact ⟨this.1, by
          rcases this.2 with h | ⟨q, hq, hqt⟩
          · exact Or.inl h
          · exact Or.inr ⟨q, List.mem_cons_of_mem p hq, hqt⟩⟩
    · -- non-empty current text: name the updated state
      have hkey : ∀ st' : StreamSt, st'.lastText = p.text →
          ((streamLoop thr rest st').1 = none → False) ∧
          (∀ f, (streamLoop thr rest st').1 = some f →
            f ≠ "" ∧ (f = st.lastText ∨ ∃ q ∈ p :: rest, q.text = f)) := by
        intro st' hst'
        constructor
        · intro h
          exact hpt (hst' ▸ ((ih st').1 h).1)
        · intro f hf
          have := (ih st').2 f hf
          refine ⟨this.1, ?_⟩
          rcases this.2 with h | ⟨q, hq, hqt⟩
          · exact Or.inr ⟨p, List.mem_cons_self p rest, hst'.symm.trans h.symm⟩
          · exact Or.inr ⟨q, List.mem_cons_of_mem p hq, hqt⟩
      by_cases heq : p.text = st.lastText
      · have hlast : st.lastText ≠ "" := heq ▸ hpt
        by_cases hcp : p.complete
        · constructor
          · intro h; simp [streamLoop, hpt, heq, hcp, hlast] at h
          · intro f hf
            simp only [streamLoop, if_neg hpt, if_pos heq, hcp, if_true] at hf
            simp only [Option.some.injEq] at hf
            exact ⟨hf ▸ hlast, Or.inl hf.symm⟩
        · by_cases hst : thr < st.stableCount + 1 ∧ st.lastText ≠ ""
          · constructor
            · intro h; simp [streamLoop, hpt, heq, hcp, hst, hlast] at h
            · intro f hf
              simp only [streamLoop, if_neg hpt, if_pos heq, hcp, Bool.false_eq_true,
                if_false, if_pos hst] at hf
              simp only [Option.some.injEq] at hf
              exact ⟨hf ▸ hlast, Or.inl hf.symm⟩
          · have hnt : ¬ thr < st.stableCount + 1 := fun hh => hst ⟨hh, hlast⟩
            have hred : (streamLoop thr (p :: rest) st).1 =
                (streamLoop thr rest ⟨st.lastText, st.stableCount + 1⟩).1 := by
              simp [streamLoop, hpt, heq, hcp, hst, hlast, hnt]
            rw [hred]
            have := hkey ⟨st.lastText, st.stableCount + 1⟩ (by simpa using heq.symm)
            exact ⟨fun h => absurd (this.1 h) (fun q => q), this.2⟩
      · by_cases hcp : p.complete
        · constructor
          · intro h; simp [streamLoop, hpt, heq, hcp] at h
          · intro f hf
            simp only [streamLoop, if_neg hpt, if_neg heq, hcp, if_true] at hf
            simp only [Option.some.injEq] at hf
            exact ⟨hf ▸ hpt, Or.inr ⟨p, List.mem_cons_self p rest, hf⟩⟩
        · by_cases hst : thr < (0 : Nat) ∧ p.text ≠ ""
          · exact absurd hst.1 (by omega)
          · have hred : (streamLoop thr (p :: rest) st).1 =
                (streamLoop thr rest ⟨p.text, 0⟩).1 := by
              simp [streamLoop, hpt, heq, hcp, hst]
            rw [hred]
            have := hkey ⟨p.text, 0⟩ rfl
            exact ⟨fun h => absurd (this.1 h) (fun q => q), this.2⟩

/-- When every polled text is empty, the loop observes nothing and times out
with a raised `ResponseTimeoutError` and no emitted chunks. -/
theorem streamLoop_none_of_all_empty (thr : Nat) (polls : List Poll) (st : StreamSt)
    (hl : st.lastText = "") (h : ∀ p ∈ polls, p.text = "") :
    streamLoop thr polls st = (none, []) := by
  induction polls with
  | nil => simp [streamLoop, hl]
  | cons p rest ih =>
    have hpt : p.text = "" := h p (List.mem_cons_self p rest)
    rw [show streamLoop thr (p :: rest) st = streamLoop thr rest st by
      simp [streamLoop, hpt]]
    exact ih (fun q hq => h q (List.mem_cons_of_mem p hq))

/-- C1: for every sequence of polled texts in which each value is a
prefix-extension of the previous (starting from the initial `last_text` `l0`),
the streaming loop invokes `on_chunk` exactly once per strict growth with the
suffix delta (the emitted chunks are exactly `chunkDeltas`, whose length is the
number of strict-growth ticks), and the concatenation of all emitted deltas
equals the final text minus the initial text: `l0` followed by the joined
chunks reconstructs the final text with no characters duplicated or dropped.
Stated for runs that the loop processes in full (no completion signal, tick
budget below the stability threshold). -/
theorem claim_C1_chunk_emission (thr : Nat) (polls : List Poll) (l0 : String)
    (hchain : Chain l0 (polls.map Poll.text))
    (hcomp : ∀ p ∈ polls, p.complete = false)
    (hthr : polls.length ≤ thr) :
    (streamLoop thr polls ⟨l0, 0⟩).2 = chunkDeltas l0 (polls.map Poll.text) ∧
    (chunkDeltas l0 (polls.map Poll.text)).length = growthCount l0 (polls.map Poll.text) ∧
    l0 ++ String.join ((streamLoop thr polls ⟨l0, 0⟩).2) = lastNE l0 (polls.map Poll.text) := by
  have hfull := streamLoop_full thr polls ⟨l0, 0⟩ hcomp (by simpa using hthr)
  refine ⟨by rw [hfull], chunkDeltas_length _ _, ?_⟩
  rw [hfull]
  exact chunkDeltas_join l0 _ hchain

/-- Witness for C1 at the concrete growth sequence `"a" → "ab" → "ab" → "abc"`. -/
theorem claim_C1_witness :
    "" ++ String.join ((streamLoop 5
        [Poll.mk "a" false, Poll.mk "ab" false, Poll.mk "ab" false, Poll.mk "abc" false]
        ⟨"", 0⟩).2) =
      lastNE "" (([Poll.mk "a" false, Poll.mk "ab" false, Poll.mk "ab" false,
        Poll.mk "abc" false]).map Poll.text) :=
  (claim_C1_chunk_emission 5
    [Poll.mk "a" false, Poll.mk "ab" false, Poll.mk "ab" false, Poll.mk "abc" false] ""
    (by decide) (by decide) (by decide)).2.2

/-- C2: starting with no observed text, the streaming loop raises
`ResponseTimeoutError` (result `none`) exactly when every polled text was
empty, and whenever it returns a text — including at the timeout exit — that
text is non-empty (never the empty string) and is one of the observed polled
texts. -/
theorem claim_C2_timeout_behavior (thr : Nat) (polls : List Poll) :
    ((streamLoop thr polls ⟨"", 0⟩).1 = none ↔ ∀ p ∈ polls, p.text = "") ∧
    (∀ f, (streamLoop thr polls ⟨"", 0⟩).1 = some f →
      f ≠ "" ∧ ∃ p ∈ polls, p.text = f) := by
  constructor
  · constructor
    · intro h
      exact ((streamLoop_res_spec thr polls ⟨"", 0⟩).1 h).2
    · intro h
      rw [streamLoop_none_of_all_empty thr polls ⟨"", 0⟩ rfl h]
  · intro f hf
    have h2 := (streamLoop_res_spec thr polls ⟨"", 0⟩).2 f hf
    refine ⟨h2.1, ?_⟩
    rcases h2.2 with h | h
    · exact absurd h h2.1
    · exact h

/-- Witness for C2: a run observing `"hi"` and timing out returns `"hi"`,
which is non-empty. -/
theorem claim_C2_witness :
    (streamLoop 3 [Poll.mk "" false, Poll.mk "hi" false] ⟨"", 0⟩).1 = some "hi" ∧
    ("hi" : String) ≠ "" :=
  ⟨by decide,
   ((claim_C2_timeout_behavior 3 [Poll.mk "" false, Poll.mk "hi" false]).2 "hi"
     (by decide)).1⟩

/-- Counterexample to C7 as stated: the polled text grows to `"ab"` and then
shrinks to `"a"`; the loop exits by timeout and returns `"a"`, the most recent
text, not the longest text observed (`"ab"`, which was emitted as a chunk).
Neither `_stream_response` variant tracks a longest-seen text. -/
theorem claim_C7_counterexample :
    streamLoop 5 [Poll.mk "ab" false, Poll.mk "a" false] ⟨"", 0⟩ = (some "a", ["ab"]) ∧
    ("a" : String) ≠ "ab" := by
  constructor
  · decide
  · decide

/-- C7 (amended): when the polled text shrinks at some tick and the loop exits
by timeout, the value returned is the most recently observed non-empty text
(`last_text`), not necessarily the longest; chunk callbacks are emitted only
for strictly-growing deltas (exactly the strict-growth suffix deltas). -/
theorem claim_C7_amended (thr : Nat) (polls : List Poll)
    (hcomp : ∀ p ∈ polls, p.complete = false)
    (hthr : polls.length ≤ thr) :
    streamLoop thr polls ⟨"", 0⟩ =
      (if lastNE "" (polls.map Poll.text) = "" then none
       else some (lastNE "" (polls.map Poll.text)),
       chunkDeltas "" (polls.map Poll.text)) ∧
    (chunkDeltas "" (polls.map Poll.text)).length = growthCount "" (polls.map Poll.text) :=
  ⟨streamLoop_full thr polls ⟨"", 0⟩ hcomp (by simpa using hthr),
   chunkDeltas_length _ _⟩

/-- Witness for the amended C7 at the shrinking sequence `"ab" → "a"`. -/
theorem claim_C7_witness :
    streamLoop 6 [Poll.mk "ab" false, Poll.mk "a" false, Poll.mk "a" false] ⟨"", 0⟩ =
      (if lastNE "" (([Poll.mk "ab" false, Poll.mk "a" false,
            Poll.mk "a" false]).map Poll.text) = "" then none
       else some (lastNE "" (([Poll.mk "ab" false, Poll.mk "a" false,
            Poll.mk "a" false]).map Poll.text)),
       chunkDeltas "" (([Poll.mk "ab" false, Poll.mk "a" false,
            Poll.mk "a" false]).map Poll.text)) ∧
    (chunkDeltas "" (([Poll.mk "ab" false, Poll.mk "a" false,
          Poll.mk "a" false]).map Poll.text)).length =
      growthCount "" (([Poll.mk "ab" false, Poll.mk "a" false,
          Poll.mk "a" false]).map Poll.text) :=
  claim_C7_amended 6 [Poll.mk "ab" false, Poll.mk "a" false, Poll.mk "a" false]
    (by decide) (by decide)

/-! ## Completion check (`_check_response_complete` / `_is_response_complete`)

Embedding of playwright_client.py lines 396-426 and uc_client.py lines
247-274.  The page is abstracted as a query function from selector strings to
an optional element (`query_selector` / `find_element`, `none` for no match or
`NoSuchElementException`) plus a visibility test on elements (`is_visible` /
`is_displayed`).  The target's configuration contributes the two optional
selectors `response_complete_indicator` and `stop_selector`. -/

/-- Stop-control part of the completion check: complete when the stop control
is defined, matches an element in the DOM, and that element is not visible.
When the stop control is defined but absent from the DOM both variants return
`False` directly (inconclusive); when it is undefined the check falls through
to `False`. -/
def stopControlComplete {E : Type} (query : String → Option E) (vis : E → Bool)
    (stop : Option String) : Bool :=
  match stop with
  | some s =>
    match query s with
    | some btn => ! vis btn
    | none => false
  | none => false

/-- Embedding of `_check_response_complete`: first the completion-indicator
check (`response_complete_indicator` defined and matching any element), then
the stop-control check. -/
def checkResponseComplete {E : Type} (query : String → Option E) (vis : E → Bool)
    (rci stop : Option String) : Bool :=
  match rci with
  | some ind =>
    match query ind with
    | some _ => true
    | none => stopControlComplete query vis stop
  | none => stopControlComplete query vis stop

/-- C6: the completion check returns `true` iff either (i) the target defines
a completion-indicator selector matched by some element, or (ii) the target
defines a stop-control selector matched by an element that is in the DOM but
not visible; and when the stop control is defined but simply absent from the
DOM, the stop-control signal by itself reports no completion. -/
theorem claim_C6_completion_check {E : Type} (query : String → Option E)
    (vis : E → Bool) (rci stop : Option String) :
    (checkResponseComplete query vis rci stop = true ↔
      ((∃ ind, rci = some ind ∧ ∃ e, query ind = some e) ∨
       (∃ s, stop = some s ∧ ∃ b, query s = some b ∧ vis b = false))) ∧
    (∀ s, stop = some s → query s = none → stopControlComplete query vis stop = false) := by
  constructor
  · constructor
    · intro h
      match hrci : rci with
      | some ind =>
        match hq : query ind with
        | some e => exact Or.inl ⟨ind, rfl, e, hq⟩
        | none =>
          simp only [checkResponseComplete, hrci, hq] at h
          match hstop : stop with
          | some s =>
            match hqs : query s with
            | some btn =>
              simp only [stopControlComplete, hstop, hqs, Bool.not_eq_true'] at h
              exact Or.inr ⟨s, rfl, btn, hqs, h⟩
            | none => simp [stopControlComplete, hstop, hqs] at h
          | none => simp [stopControlComplete, hstop] at h
      | none =>
        simp only [checkResponseComplete, hrci] at h
        match hstop : stop with
        | some s =>
          match hqs : query s with
          | some btn =>
            simp only [stopControlComplete, hstop, hqs, Bool.not_eq_true'] at h
            exact Or.inr ⟨s, rfl, btn, hqs, h⟩
          | none => simp [stopControlComplete, hstop, hqs] at h
        | none => simp [stopControlComplete, hstop] at h
    · intro h
      rcases h with ⟨ind, hrci, e, hq⟩ | ⟨s, hstop, btn, hqs, hvis⟩
      · simp [checkResponseComplete, hrci, hq]
      · have hsc : stopControlComplete query vis stop = true := by
          simp [stopControlComplete, hstop, hqs, hvis]
        match hrci : rci with
        | some ind =>
          match hq2 : query ind with
          | some e => simp [checkResponseComplete, hrci, hq2]
          | none => simpa [checkResponseComplete, hrci, hq2] using hsc
        | none => simpa [checkResponseComplete, hrci] using hsc
  · intro s hstop hq
    simp [stopControlComplete, hstop, hq]

/-- Witness for C6: with a stop control present in the DOM but invisible, the
check reports completion; with the stop control absent, the stop-control
signal reports nothing. -/
theorem claim_C6_witness :
    checkResponseComplete (fun s => if s = "stop" then some 0 else none)
        (fun _ : Nat => false) none (some "stop") = true ∧
    stopControlComplete (fun _ : String => (none : Option Nat))
        (fun _ : Nat => false) (some "stop") = false :=
  ⟨by
    have h := (claim_C6_completion_check (fun s => if s = "stop" then some 0 else none)
      (fun _ : Nat => false) none (some "stop")).1
    exact h.mpr (Or.inr ⟨"stop", rfl, 0, by decide, rfl⟩),
   (claim_C6_completion_check (fun _ : String => (none : Option Nat))
      (fun _ : Nat => false) none (some "stop")).2 "stop" rfl rfl⟩

/-! ## Debate fan-out (`DebateOrchestrator.debate`)

Embedding of playwright_client.py lines 626-668 and uc_client.py lines
344-375.  Each owned client's `send_prompt` outcome is a Python value or a
raised exception, embedded as `Except PyExc String`; `query_llm` catches any
exception and converts it to the placeholder string
`f"[Error: {type(e).__name__}: {str(e)[:100]}]"`.  `asyncio.gather` awaits
every task and `dict(results)` collects one entry per owned client, embedded
as a map over the association list of clients. -/

/-- A raised Python exception: its type name (`type(e).__name__`) and its
message (`str(e)`). -/
structure PyExc where
  kind : String
  msg : String
deriving DecidableEq, Repr

/-- Placeholder string stored in a failing client's slot, with the message
truncated to its first 100 characters (`str(e)[:100]`). -/
def errorPlaceholder (e : PyExc) : String :=
  "[Error: " ++ e.kind ++ ": " ++ e.msg.take 100 ++ "]"

/-- Embedding of the inner `query_llm` coroutine: a successful `send_prompt`
yields `(name, response)`, a raised exception is caught and yields
`(name, placeholder)`. -/
def queryLLM (name : String) (r : Except PyExc String) : String × String :=
  match r with
  | .ok response => (name, response)
  | .error e => (name, errorPlaceholder e)

/-- Embedding of `DebateOrchestrator.debate`: run `query_llm` for every owned
client and gather all results. -/
def debateRun (clients : List (String × Except PyExc String)) : List (String × String) :=
  clients.map (fun c => queryLLM c.1 c.2)

/-- C3: `debate` returns one entry per owned client with the client names
preserved; a slot holds the client's response on success and the
`"[Error: <kind>: <message truncated to 100 chars>]"` placeholder on a caught
exception; the call is total (never raises) and covers every client.  The
truncated message is at most 100 characters long. -/
theorem claim_C3_debate_isolation (clients : List (String × Except PyExc String)) :
    (debateRun clients).length = clients.length ∧
    (debateRun clients).map Prod.fst = clients.map Prod.fst ∧
    List.Forall₂ (fun c out =>
      out.1 = c.1 ∧
      (∀ s, c.2 = .ok s → out.2 = s) ∧
      (∀ e, c.2 = .error e →
        out.2 = "[Error: " ++ e.kind ++ ": " ++ e.msg.take 100 ++ "]" ∧
        (e.msg.take 100).length ≤ 100))
      clients (debateRun clients) := by
  refine ⟨by simp [debateRun], ?_, ?_⟩
  · simp only [debateRun, List.map_map]
    apply List.map_congr_left
    intro c _
    cases hr : c.2 <;> simp [queryLLM, hr]
  induction clients with
  | nil => exact List.Forall₂.nil
  | cons c rest ih =>
    refine List.Forall₂.cons ?_ ih
    refine ⟨?_, ?_, ?_⟩
    · cases hr : c.2 <;> simp [queryLLM, hr]
    · intro s hs
      simp [queryLLM, hs]
    · intro e he
      refine ⟨by simp [queryLLM, he, errorPlaceholder], ?_⟩
      have : (e.msg.take 100).data = e.msg.data.take 100 := String.data_take e.msg 100
      rw [strLen_data, this]
      simp

set_option maxRecDepth 8000 in
/-- Witness for C3, the spec's orchestrator-isolation scenario: three clients
of which one raises; the result has three entries, one of which is the error
placeholder, and the call completes. -/
theorem claim_C3_witness :
    (debateRun [("claude", Except.ok "a"),
        ("chatgpt", Except.error (PyExc.mk "TimeoutException" "boom")),
        ("gemini", Except.ok "c")]).length = 3 ∧
    debateRun [("claude", Except.ok "a"),
        ("chatgpt", Except.error (PyExc.mk "TimeoutException" "boom")),
        ("gemini", Except.ok "c")] =
      [("claude", "a"), ("chatgpt", "[Error: TimeoutException: boom]"),
       ("gemini", "c")] :=
  ⟨(claim_C3_debate_isolation [("claude", Except.ok "a"),
      ("chatgpt", Except.error (PyExc.mk "TimeoutException" "boom")),
      ("gemini", Except.ok "c")]).1.trans (by decide),
   by decide⟩

/-! ## Authentication check (`LLMClient.is_logged_in`) and the not-started guard

Embedding of playwright_client.py lines 191-210 / uc_client.py lines 62-84
(`is_logged_in`) and playwright_client.py lines 289-291 / uc_client.py lines
141-142 (the `send_prompt` guard).  The started/stopped client state is the
presence of the page handle (`self._page` / `self.driver`), embedded as an
`Option`; the page controller is abstracted as a navigation action that can
fail and a per-selector DOM query. -/

/-- Page-controller capability consumed by `is_logged_in`: navigation to the
landing URL (covering `goto` plus the settle waits, any of which may raise and
be caught) and `query_selector` per input selector. -/
structure AuthProbe (P E : Type) where
  navigate : P → Except PyExc Unit
  query : P → String → Option E

/-- Embedding of `is_logged_in`.  Returns the boolean outcome together with
the number of navigations attempted.  A missing page returns `False` at once;
a navigation failure is caught and returns `False`; otherwise the client is
considered logged in iff any input selector matches. -/
def isLoggedIn {P E : Type} (probe : AuthProbe P E) (page : Option P)
    (inputSelectors : List String) : Bool × Nat :=
  match page with
  | none => (false, 0)
  | some pg =>
    match probe.navigate pg with
    | .error _ => (false, 1)
    | .ok _ => (inputSelectors.any fun s => (probe.query pg s).isSome, 1)

/-- Embedding of the guard at the top of `_send_prompt_impl` / `send_prompt`:
a client without a page raises `RuntimeError("Client not started")`, otherwise
the body runs. -/
def sendPromptGuard {P : Type} (page : Option P)
    (body : P → Except PyExc String) : Except PyExc String :=
  match page with
  | none => .error (PyExc.mk "RuntimeError" "Client not started")
  | some pg => body pg

/-- C10: on a client that has not been started (or has been stopped), the
authentication check returns `False` without raising and without attempting
any navigation, unlike `send_prompt`, whose guard raises
`RuntimeError("Client not started")` on the same state; and a caught
navigation failure also yields `False` rather than an exception. -/
theorem claim_C10_not_started {P E : Type} (probe : AuthProbe P E)
    (sels : List String) (body : P → Except PyExc String) :
    isLoggedIn probe (none : Option P) sels = (false, 0) ∧
    sendPromptGuard (none : Option P) body =
      .error (PyExc.mk "RuntimeError" "Client not started") ∧
    (∀ pg e, probe.navigate pg = .error e → isLoggedIn probe (some pg) sels = (false, 1)) := by
  refine ⟨rfl, rfl, ?_⟩
  intro pg e he
  simp [isLoggedIn, he]

/-- Witness for C10 with a concrete probe whose navigation fails. -/
theorem claim_C10_witness :
    isLoggedIn (AuthProbe.mk (fun _ : Unit => Except.error (PyExc.mk "TimeoutError" "nav"))
        (fun _ _ => (none : Option Nat))) (some ()) ["textarea"] = (false, 1) :=
  (claim_C10_not_started
    (AuthProbe.mk (fun _ : Unit => Except.error (PyExc.mk "TimeoutError" "nav"))
      (fun _ _ => (none : Option Nat)))
    ["textarea"] (fun _ => Except.ok "")).2.2 () (PyExc.mk "TimeoutError" "nav") rfl

/-! ## Triage prompt builder (`triage.build_triage_prompt`)

Embedding of src/triage.py lines 21-156.  The templates are transcribed
literally, split at the `str.format` holes; Python's
`responses.get(key, default)` over the response dict is embedded as
`List.lookup` with `Option.getD` over an association list.  Apostrophes in the
template text are written with the `\x27` escape. -/

/-- Transcription of `triage.SYSTEM_PROMPT`. -/
def SYSTEM_PROMPT : String :=
  "When analyzing the three AI responses below, structure your analysis in exactly this format:\n\n## Consensus Points\nList facts and conclusions where all three models agree. These represent high-confidence information.\n\n## Key Disagreements\nIdentify where the models conflict or provide different answers. For each disagreement:\n- State the conflicting positions\n- Evaluate the reasoning quality\n- Indicate which position seems most credible (or mark as \"needs verification\")\n\n## Synthesized Answer\nMerge the best insights from all three responses into a coherent, comprehensive answer.\n- Integrate complementary perspectives\n- Attribute unique insights when valuable (e.g., \"As noted by one model...\")\n- Remove redundancy while preserving nuance\n\nBe concise but thorough. The goal is to give the user maximum value from consulting three different AI models."

/-- Literal template segment before the `{system_prompt}` hole of the unified
template. -/
def UNIFIED_HEAD : String :=
  "You are analyzing responses from three AI models: Claude, ChatGPT, and Gemini.\n\n"

/-- Literal segment before the `{prompt}` hole of the unified template. -/
def SEG_QUESTION : String := "\n\n---\n\nORIGINAL QUESTION:\n"

/-- Literal segment before the `{prompt}` hole of the two legacy templates. -/
def SEG_ORIGINAL : String := "\n\n---\n\nORIGINAL PROMPT:\n"

/-- Literal segment before the `{claude}` hole. -/
def SEG_CLAUDE : String := "\n\n---\n\nCLAUDE\x27S RESPONSE:\n"

/-- Literal segment before the `{chatgpt}` hole. -/
def SEG_CHATGPT : String := "\n\n---\n\nCHATGPT\x27S RESPONSE:\n"

/-- Literal segment before the `{gemini}` hole. -/
def SEG_GEMINI : String := "\n\n---\n\nGEMINI\x27S RESPONSE:\n"

/-- Transcription of `PROMPTS[TriageMode.UNIFIED].format(...)`. -/
def PROMPT_UNIFIED (system_prompt prompt claude chatgpt gemini : String) : String :=
  UNIFIED_HEAD ++ system_prompt ++ SEG_QUESTION ++ prompt ++
  SEG_CLAUDE ++ claude ++ SEG_CHATGPT ++ chatgpt ++ SEG_GEMINI ++ gemini ++
  "\n\n---\n\nNow provide your unified analysis:"

/-- Transcription of `PROMPTS[TriageMode.SYNTHESIS].format(...)` (this legacy
template has no `{system_prompt}` hole). -/
def PROMPT_SYNTHESIS (prompt claude chatgpt gemini : String) : String :=
  "You are synthesizing responses from three AI models: Claude, ChatGPT, and Gemini.\n\nYour task:\n1. Identify the best ideas from each response\n2. Merge them into a coherent, unified answer\n3. Remove redundancy while preserving unique insights\n4. When a particular model had a notably good point, attribute it (e.g., \"As Claude noted...\")\n\nBe concise but comprehensive. The goal is to give the user the best possible answer by combining the strengths of all three models." ++
  SEG_ORIGINAL ++ prompt ++
  SEG_CLAUDE ++ claude ++ SEG_CHATGPT ++ chatgpt ++ SEG_GEMINI ++ gemini ++
  "\n\n---\n\nNow provide your synthesis:"

/-- Transcription of `PROMPTS[TriageMode.ARBITRATION].format(...)` (no
`{system_prompt}` hole). -/
def PROMPT_ARBITRATION (prompt claude chatgpt gemini : String) : String :=
  "You are arbitrating between three AI models: Claude, ChatGPT, and Gemini.\n\nYour task:\n1. AGREEMENTS: List facts/claims where all three models agree (high confidence)\n2. DISAGREEMENTS: List points where they conflict or contradict each other\n3. VERDICT: For each disagreement, evaluate the reasoning and evidence, then:\n   - Declare which model is correct, OR\n   - Mark as \"needs verification\" if you can\x27t determine the truth\n\nFormat your response clearly with sections for Agreements, Disagreements, and Verdicts." ++
  SEG_ORIGINAL ++ prompt ++
  SEG_CLAUDE ++ claude ++ SEG_CHATGPT ++ chatgpt ++ SEG_GEMINI ++ gemini ++
  "\n\n---\n\nNow provide your arbitration:"

/-- Triage modes of `triage.TriageMode`. -/
inductive TriageMode where
  | unified
  | synthesis
  | arbitration
deriving DecidableEq, Repr

/-- Embedding of `build_triage_prompt`: select the template for `mode` and
substitute the original prompt and the three per-target responses, defaulting
a missing key to its `"[No response from <Target>]"` placeholder
(`responses.get(key, default)`).  The `system_prompt` argument is
`SYSTEM_PROMPT` exactly in unified mode; the legacy templates ignore it. -/
def buildTriagePrompt (prompt : String) (responses : List (String × String))
    (mode : TriageMode) : String :=
  let claude := (responses.lookup "claude").getD "[No response from Claude]"
  let chatgpt := (responses.lookup "chatgpt").getD "[No response from ChatGPT]"
  let gemini := (responses.lookup "gemini").getD "[No response from Gemini]"
  match mode with
  | .unified => PROMPT_UNIFIED SYSTEM_PROMPT prompt claude chatgpt gemini
  | .synthesis => PROMPT_SYNTHESIS prompt claude chatgpt gemini
  | .arbitration => PROMPT_ARBITRATION prompt claude chatgpt gemini

/-- Substring test on strings (character-wise). -/
def containsSub : List Char → List Char → Bool
  | [], needle => needle.isEmpty
  | h :: t, needle => needle.isPrefixOf (h :: t) || containsSub t needle

/-- Whether `needle` occurs as a contiguous substring of `hay`. -/
def strContains (hay needle : String) : Bool := containsSub hay.data needle.data

set_option maxRecDepth 40000 in
/-- C9: `build_triage_prompt` is a pure function of the original prompt, the
response map, and the mode; it substitutes `"[No response from <Target>]"` for
any target whose key is missing; in the spec's concrete scenario (prompt
`"X?"`, responses for claude and chatgpt only) the rendered unified prompt
contains the literal substring `"[No response from Gemini]"` and does not
contain the token `"None"`; and the output depends on the response map only
through the three configured target keys. -/
theorem claim_C9_triage_prompt :
    (strContains (buildTriagePrompt "X?" [("claude", "a"), ("chatgpt", "b")]
        TriageMode.unified) "[No response from Gemini]" = true ∧
     strContains (buildTriagePrompt "X?" [("claude", "a"), ("chatgpt", "b")]
        TriageMode.unified) "None" = false) ∧
    (∀ (p : String) (resp : List (String × String)), resp.lookup "gemini" = none →
      ∃ a b, buildTriagePrompt p resp TriageMode.unified =
        a ++ ("[No response from Gemini]" ++ b)) ∧
    (∀ (p : String) (r1 r2 : List (String × String)) (mode : TriageMode),
      r1.lookup "claude" = r2.lookup "claude" →
      r1.lookup "chatgpt" = r2.lookup "chatgpt" →
      r1.lookup "gemini" = r2.lookup "gemini" →
      buildTriagePrompt p r1 mode = buildTriagePrompt p r2 mode) := by
  refine ⟨⟨by decide, by decide⟩, ?_, ?_⟩
  · intro p resp h
    refine ⟨UNIFIED_HEAD ++ SYSTEM_PROMPT ++ SEG_QUESTION ++ p ++
      SEG_CLAUDE ++ (resp.lookup "claude").getD "[No response from Claude]" ++
      SEG_CHATGPT ++ (resp.lookup "chatgpt").getD "[No response from ChatGPT]" ++
      SEG_GEMINI,
      "\n\n---\n\nNow provide your unified analysis:", ?_⟩
    simp only [buildTriagePrompt, h, Option.getD_none, PROMPT_UNIFIED,
      String.append_assoc]
  · intro p r1 r2 mode h1 h2 h3
    simp only [buildTriagePrompt, h1, h2, h3]

set_option maxRecDepth 40000 in
/-- Witness for C9: the placeholder really appears in the concrete rendered
prompt of the universal part. -/
theorem claim_C9_witness :
    strContains (buildTriagePrompt "X?" [("claude", "a"), ("chatgpt", "b")]
      TriageMode.unified) "[No response from Gemini]" = true ∧
    buildTriagePrompt "X?" [("claude", "a")] TriageMode.unified =
      buildTriagePrompt "X?" [("claude", "a"), ("other", "z")] TriageMode.unified :=
  ⟨(claim_C9_triage_prompt).1.1,
   (claim_C9_triage_prompt).2.2 "X?" [("claude", "a")] [("claude", "a"), ("other", "z")]
     TriageMode.unified (by decide) (by decide) (by decide)⟩

/-! ## Resilient element locator

Embedding of `LLMClient._find_element_with_fallbacks`
(playwright_client.py lines 158-189) and of the uc variant
`LLMClient._find_element` / `_find_clickable` (uc_client.py lines 108-132).
The page is abstracted by functions giving, per selector, the element a
bounded wait produces (`none` embeds the caught timeout exception), plus the
immediate `query_selector` result for the playwright second pass.  Probe
traces record which selectors the first pass tried and with what slice of the
timeout budget. -/

/-- Page capabilities consumed by the playwright locator: `wait_for_selector`
with `state="visible"` under a timeout slice, and `query_selector`. -/
structure PwPage (E : Type) where
  waitVisible : String → Nat → Option E
  queryOne : String → Option E

/-- Visible-first pass of `_find_element_with_fallbacks`: try each selector in
order with the given timeout slice, stopping at the first visible match;
returns the result and the trace of (selector, slice) probes attempted. -/
def visiblePass {E : Type} (pg : PwPage E) (slice : Nat) :
    List String → Option E × List (String × Nat)
  | [] => (none, [])
  | s :: rest =>
    match pg.waitVisible s slice with
    | some e => (some e, [(s, slice)])
    | none =>
      let r := visiblePass pg slice rest
      (r.1, (s, slice) :: r.2)

/-- Existence-only second pass: `query_selector` each selector in order,
returning the first that exists regardless of visibility. -/
def existencePass {E : Type} (pg : PwPage E) : List String → Option E
  | [] => none
  | s :: rest =>
    match pg.queryOne s with
    | some e => some e
    | none => existencePass pg rest

/-- Embedding of `_find_element_with_fallbacks`: divide the timeout by the
number of selectors (`timeout // len(selectors)`), run the visible-first pass,
then the existence-only pass, and raise `SelectorNotFoundError` (`.error`)
only when both are exhausted.  Returns the result together with the
visible-pass probe trace. -/
def findElementWithFallbacks {E : Type} (pg : PwPage E) (selectors : List String)
    (timeout : Nat) : Except Unit E × List (String × Nat) :=
  let slice := timeout / selectors.length
  let v := visiblePass pg slice selectors
  match v.1 with
  | some e => (.ok e, v.2)
  | none =>
    match existencePass pg selectors with
    | some e => (.ok e, v.2)
    | none => (.error (), v.2)

theorem visiblePass_slice {E : Type} (pg : PwPage E) (slice : Nat) :
    ∀ (sels : List String), ∀ pr ∈ (visiblePass pg slice sels).2, pr.2 = slice := by
  intro sels
  induction sels with
  | nil => intro pr hpr; simp [visiblePass] at hpr
  | cons s rest ih =>
    intro pr hpr
    match hw : pg.waitVisible s slice with
    | some e =>
      simp only [visiblePass, hw] at hpr
      simp only [List.mem_singleton] at hpr
      rw [hpr]
    | none =>
      simp only [visiblePass, hw, List.mem_cons] at hpr
      rcases hpr with h | h
      · rw [h]
      · exact ih pr h

theorem visiblePass_all_none {E : Type} (pg : PwPage E) (slice : Nat) :
    ∀ (sels : List String), (∀ s ∈ sels, pg.waitVisible s slice = none) →
    visiblePass pg slice sels = (none, sels.map fun s => (s, slice)) := by
  intro sels h
  induction sels with
  | nil => rfl
  | cons s rest ih =>
    have hs : pg.waitVisible s slice = none := h s (List.mem_cons_self s rest)
    simp only [visiblePass, hs, List.map_cons]
    rw [ih (fun q hq => h q (List.mem_cons_of_mem s hq))]

theorem visiblePass_first {E : Type} (pg : PwPage E) (slice : Nat) :
    ∀ (sels : List String) (k : Nat) (hk : k < sels.length) (e : E),
    (∀ j (hj : j < k), pg.waitVisible (sels.get ⟨j, Nat.lt_trans hj hk⟩) slice = none) →
    pg.waitVisible (sels.get ⟨k, hk⟩) slice = some e →
    visiblePass pg slice sels = (some e, (sels.take (k + 1)).map fun s => (s, slice)) := by
  intro sels
  induction sels with
  | nil => intro k hk e _ _; exact absurd hk (by simp)
  | cons s rest ih =>
    intro k hk e hbefore hhit
    match k with
    | 0 =>
      simp only [List.get] at hhit
      simp [visiblePass, hhit]
    | k' + 1 =>
      have hs : pg.waitVisible s slice = none := by
        have := hbefore 0 (Nat.succ_pos k')
        simpa using this
      have hk' : k' < rest.length := by simpa using Nat.lt_of_succ_lt_succ hk
      have hbefore' : ∀ j (hj : j < k'),
          pg.waitVisible (rest.get ⟨j, Nat.lt_trans hj hk'⟩) slice = none := by
        intro j hj
        have := hbefore (j + 1) (Nat.succ_lt_succ hj)
        simpa using this
      have hhit' : pg.waitVisible (rest.get ⟨k', hk'⟩) slice = some e := by
        simpa using hhit
      simp only [visiblePass, hs]
      rw [ih k' hk' e hbefore' hhit']
      simp [List.take_succ_cons]

theorem existencePass_first {E : Type} (pg : PwPage E) :
    ∀ (sels : List String) (k : Nat) (hk : k < sels.length) (e : E),
    (∀ j (hj : j < k), pg.queryOne (sels.get ⟨j, Nat.lt_trans hj hk⟩) = none) →
    pg.queryOne (sels.get ⟨k, hk⟩) = some e →
    existencePass pg sels = some e := by
  intro sels
  induction sels with
  | nil => intro k hk; exact absurd hk (by simp)
  | cons s rest ih =>
    intro k hk e hbefore hhit
    match k with
    | 0 =>
      simp only [List.get] at hhit
      simp [existencePass, hhit]
    | k' + 1 =>
      have hs : pg.queryOne s = none := by
        have := hbefore 0 (Nat.succ_pos k')
        simpa using this
      have hk' : k' < rest.length := by simpa using Nat.lt_of_succ_lt_succ hk
      simp only [existencePass, hs]
      exact ih k' hk' e
        (fun j hj => by simpa using hbefore (j + 1) (Nat.succ_lt_succ hj))
        (by simpa using hhit)

theorem existencePass_all_none {E : Type} (pg : PwPage E) :
    ∀ (sels : List String), (∀ s ∈ sels, pg.queryOne s = none) →
    existencePass pg sels = none := by
  intro sels h
  induction sels with
  | nil => rfl
  | cons s rest ih =>
    have hs : pg.queryOne s = none := h s (List.mem_cons_self s rest)
    simp only [existencePass, hs]
    exact ih (fun q hq => h q (List.mem_cons_of_mem s hq))

/-- Page capabilities consumed by the uc locator: `WebDriverWait(...).until`
for `presence_of_element_located` (existence, not visibility) and for
`element_to_be_clickable`; `none` embeds the caught `TimeoutException`. -/
structure UcPage (E : Type) where
  waitPresent : String → Nat → Option E
  waitClickable : String → Nat → Option E

/-- Shared single-pass loop of the uc locators: wait on each selector in
order under the timeout slice and return the first that matches; raise
`NoSuchElementException` (`.error`) when the pass is exhausted. -/
def ucWaitPass {E : Type} (wait : String → Nat → Option E) (slice : Nat) :
    List String → Except Unit E
  | [] => .error ()
  | s :: rest =>
    match wait s slice with
    | some e => .ok e
    | none => ucWaitPass wait slice rest

/-- Single pass of `uc_client.LLMClient._find_element`: divide the timeout
(`timeout // len(selectors)`) and wait for *presence* of each selector in
order.  There is no visibility requirement and no second pass. -/
def findElement {E : Type} (pg : UcPage E) (selectors : List String)
    (timeout : Nat) : Except Unit E :=
  ucWaitPass pg.waitPresent (timeout / selectors.length) selectors

/-- Single pass of `uc_client.LLMClient._find_clickable`, analogous to
`findElement` with the clickable wait. -/
def findClickable {E : Type} (pg : UcPage E) (selectors : List String)
    (timeout : Nat) : Except Unit E :=
  ucWaitPass pg.waitClickable (timeout / selectors.length) selectors

/-- Concrete DOM for the C4 counterexample: selector `"s0"` matches element
`0`, selector `"s1"` matches element `1`, nothing else matches. -/
def domPresent : String → Option Nat :=
  fun s => if s = "s0" then some 0 else if s = "s1" then some 1 else none

/-- Visibility in the concrete DOM: element `1` is visible, element `0` is in
the DOM but not visible. -/
def domVisible : Nat → Bool := fun e => e == 1

/-- The playwright page over the concrete DOM: the visible-state wait matches
only visible elements, `query_selector` matches any present element. -/
def pwPageC : PwPage Nat :=
  ⟨fun s _ => match domPresent s with
    | some e => if domVisible e then some e else none
    | none => none,
   domPresent⟩

/-- The uc page over the same concrete DOM: the presence wait matches any
present element, visibility never being consulted. -/
def ucPageC : UcPage Nat := ⟨fun s _ => domPresent s, fun s _ => domPresent s⟩

/-- Counterexample to C4 as stated: on a DOM where candidate 0 matches a
present-but-invisible element and candidate 1 matches a visible element, the
claim requires the visible-first pass to return the first visible match
(element 1, as `_find_element_with_fallbacks` does), but the uc locate routine
`_find_element` waits for presence only and returns the invisible element 0
from its first pass; it also has no existence-only second pass. -/
theorem claim_C4_counterexample :
    (findElementWithFallbacks pwPageC ["s0", "s1"] 10).1 = .ok 1 ∧
    findElement ucPageC ["s0", "s1"] 10 = .ok 0 ∧
    domVisible 0 = false ∧ domVisible 1 = true ∧ (0 : Nat) ≠ 1 := by
  refine ⟨?_, ?_, rfl, rfl, by decide⟩
  · rfl
  · rfl

theorem ucWaitPass_first {E : Type} (wait : String → Nat → Option E) (slice : Nat) :
    ∀ (sels : List String) (k : Nat) (hk : k < sels.length) (e : E),
    (∀ j (hj : j < k), wait (sels.get ⟨j, Nat.lt_trans hj hk⟩) slice = none) →
    wait (sels.get ⟨k, hk⟩) slice = some e →
    ucWaitPass wait slice sels = .ok e := by
  intro sels
  induction sels with
  | nil => intro k hk; exact absurd hk (by simp)
  | cons s rest ih =>
    intro k hk e hbefore hhit
    match k with
    | 0 =>
      simp only [List.get] at hhit
      simp [ucWaitPass, hhit]
    | k' + 1 =>
      have hs : wait s slice = none := by
        have := hbefore 0 (Nat.succ_pos k')
        simpa using this
      have hk' : k' < rest.length := by simpa using Nat.lt_of_succ_lt_succ hk
      simp only [ucWaitPass, hs]
      exact ih k' hk' e
        (fun j hj => by simpa using hbefore (j + 1) (Nat.succ_lt_succ hj))
        (by simpa using hhit)

theorem ucWaitPass_all_none {E : Type} (wait : String → Nat → Option E) (slice : Nat) :
    ∀ (sels : List String), (∀ s ∈ sels, wait s slice = none) →
    ucWaitPass wait slice sels = .error () := by
  intro sels h
  induction sels with
  | nil => rfl
  | cons s rest ih =>
    have hs : wait s slice = none := h s (List.mem_cons_self s rest)
    simp only [ucWaitPass, hs]
    exact ih (fun q hq => h q (List.mem_cons_of_mem s hq))

/-- C4 (amended): the playwright locate routine `_find_element_with_fallbacks`
behaves exactly as the claim states: every visible-pass probe uses the even
slice `timeout / count`; the first candidate producing a visible match is
returned and no candidate past it is probed in that pass; when no candidate
yields a visible match, one existence-only pass returns the first existing
element regardless of visibility; and `SelectorNotFoundError` is raised only
when both passes exhaust all candidates.  The uc variant `_find_element`
divides the same way but makes a single pass that waits for presence (not
visibility) returning its first match, and raises as soon as that single pass
is exhausted — it has no existence-only second pass. -/
theorem claim_C4_amended {E : Type} (pg : PwPage E) (upg : UcPage E)
    (sels : List String) (timeout : Nat) (hne : sels ≠ []) :
    (∀ pr ∈ (findElementWithFallbacks pg sels timeout).2,
        pr.2 = timeout / sels.length) ∧
    (∀ (k : Nat) (hk : k < sels.length) (e : E),
      (∀ j (hj : j < k),
        pg.waitVisible (sels.get ⟨j, Nat.lt_trans hj hk⟩) (timeout / sels.length) = none) →
      pg.waitVisible (sels.get ⟨k, hk⟩) (timeout / sels.length) = some e →
      findElementWithFallbacks pg sels timeout =
        (.ok e, (sels.take (k + 1)).map fun s => (s, timeout / sels.length))) ∧
    ((∀ s ∈ sels, pg.waitVisible s (timeout / sels.length) = none) →
      (∀ (k : Nat) (hk : k < sels.length) (e : E),
        (∀ j (hj : j < k), pg.queryOne (sels.get ⟨j, Nat.lt_trans hj hk⟩) = none) →
        pg.queryOne (sels.get ⟨k, hk⟩) = some e →
        findElementWithFallbacks pg sels timeout =
          (.ok e, sels.map fun s => (s, timeout / sels.length)))) ∧
    ((∀ s ∈ sels, pg.waitVisible s (timeout / sels.length) = none) →
      (∀ s ∈ sels, pg.queryOne s = none) →
      findElementWithFallbacks pg sels timeout =
        (.error (), sels.map fun s => (s, timeout / sels.length))) ∧
    (∀ (k : Nat) (hk : k < sels.length) (e : E),
      (∀ j (hj : j < k),
        upg.waitPresent (sels.get ⟨j, Nat.lt_trans hj hk⟩) (timeout / sels.length) = none) →
      upg.waitPresent (sels.get ⟨k, hk⟩) (timeout / sels.length) = some e →
      findElement upg sels timeout = .ok e) ∧
    ((∀ s ∈ sels, upg.waitPresent s (timeout / sels.length) = none) →
      findElement upg sels timeout = .error ()) := by
  have htrace : (findElementWithFallbacks pg sels timeout).2 =
      (visiblePass pg (timeout / sels.length) sels).2 := by
    simp only [findElementWithFallbacks]
    split
    · rfl
    · split
      · rfl
      · rfl
  refine ⟨?_, ?_, ?_, ?_, ?_, ?_⟩
  · intro pr hpr
    rw [htrace] at hpr
    exact visiblePass_slice pg (timeout / sels.length) sels pr hpr
  · intro k hk e hbefore hhit
    have hv := visiblePass_first pg (timeout / sels.length) sels k hk e hbefore hhit
    simp only [findElementWithFallbacks, hv]
  · intro hnone k hk e hbefore hhit
    have hv := visiblePass_all_none pg (timeout / sels.length) sels hnone
    have hex := existencePass_first pg sels k hk e hbefore hhit
    simp only [findElementWithFallbacks, hv, hex]
  · intro hnone hnoq
    have hv := visiblePass_all_none pg (timeout / sels.length) sels hnone
    have hex := existencePass_all_none pg sels hnoq
    simp only [findElementWithFallbacks, hv, hex]
  · intro k hk e hbefore hhit
    exact ucWaitPass_first upg.waitPresent (timeout / sels.length) sels k hk e hbefore hhit
  · intro h
    exact ucWaitPass_all_none upg.waitPresent (timeout / sels.length) sels h

/-- Witness for the amended C4 on the concrete two-candidate DOM: the
playwright routine skips the invisible candidate 0 and returns candidate 1
having probed both candidates with slice `10 / 2 = 5`; the uc routine returns
the present candidate 0. -/
theorem claim_C4_witness :
    findElementWithFallbacks pwPageC ["s0", "s1"] 10 =
      (.ok 1, (["s0", "s1"].take (1 + 1)).map fun s => (s, 10 / (["s0", "s1"] : List String).length)) ∧
    findElement ucPageC ["s0", "s1"] 10 = .ok 0 :=
  ⟨(claim_C4_amended pwPageC ucPageC ["s0", "s1"] 10 (by decide)).2.1 1 (by decide) 1
     (by intro j hj; interval_cases j <;> rfl) rfl,
   (claim_C4_amended pwPageC ucPageC ["s0", "s1"] 10 (by decide)).2.2.2.2.1 0 (by decide) 0
     (by intro j hj; omega) rfl⟩

/-! ## Retry policy (`LLMClient._send_prompt_with_retry`)

Embedding of playwright_client.py lines 46-48 and 259-280.  One whole
navigate/locate/fill/submit/stream unit (`_send_prompt_impl`) is abstracted as
a function from the attempt number to its outcome.  The loop catches only
`SelectorNotFoundError` and `PlaywrightTimeout`; between attempts (except
after the last) it sleeps `RETRY_DELAY_BASE * 2 ** attempt +
random.uniform(0, 1)` and reloads the page; after the loop it raises
`LLMClientError` carrying the last caught error.  `random.uniform(0, 1)` is
abstracted as a jitter function of the attempt number.  The uc variant
`send_prompt` (uc_client.py lines 134-187) runs its pipeline once with no
retry wrapper, embedded below as `ucSendPrompt`. -/

/-- Exceptions a send-prompt attempt can raise. `failedAfter` embeds the
wrapping `LLMClientError(f"Failed after {MAX_RETRIES} attempts: {last_error}")`
carrying the last underlying cause. -/
inductive SendErr where
  | selectorNotFound (msg : String)
  | pwTimeout (msg : String)
  | noSuchElement (msg : String)
  | responseTimeout (msg : String)
  | otherExc (kind msg : String)
  | failedAfter (attempts : Nat) (last : Option SendErr)
deriving Repr

/-- The exception classes named by `except (SelectorNotFoundError,
PlaywrightTimeout)`: only these are caught and retried. -/
def Retryable : SendErr → Bool
  | .selectorNotFound _ => true
  | .pwTimeout _ => true
  | _ => false

/-- Observable side effects of the retry loop. -/
inductive RetryEv where
  | attemptStart (n : Nat)
  | backoff (delay : Rat)
  | reload
deriving DecidableEq, Repr

/-- Maximum attempt count, `MAX_RETRIES = 3`. -/
def MAX_RETRIES : Nat := 3

/-- Base backoff delay in seconds, `RETRY_DELAY_BASE = 2`. -/
def RETRY_DELAY_BASE : Rat := 2

/-- Embedding of the `for attempt in range(MAX_RETRIES)` loop body: the
remaining attempt numbers drive the recursion; `lastErr` is the last caught
retryable error.  A non-retryable exception is not caught and propagates at
once; backoff and reload happen only when another attempt remains
(`attempt < MAX_RETRIES - 1`); exhausting the list raises the wrapping
error. -/
def retryGo (jitter : Nat → Rat) (impl : Nat → Except SendErr String) :
    List Nat → Option SendErr → Except SendErr String × List RetryEv
  | [], lastErr => (.error (.failedAfter MAX_RETRIES lastErr), [])
  | a :: rest, lastErr =>
    match impl a with
    | .ok s => (.ok s, [.attemptStart a])
    | .error e =>
      if Retryable e then
        let evs : List RetryEv :=
          if rest.isEmpty then []
          else [.backoff (RETRY_DELAY_BASE * 2 ^ a + jitter a), .reload]
        let r := retryGo jitter impl rest (some e)
        (r.1, .attemptStart a :: (evs ++ r.2))
      else
        (.error e, [.attemptStart a])

/-- Embedding of `_send_prompt_with_retry`: run the loop over attempts
`0, 1, 2` starting with no recorded error. -/
def sendPromptWithRetry (jitter : Nat → Rat) (impl : Nat → Except SendErr String) :
    Except SendErr String × List RetryEv :=
  retryGo jitter impl (List.range MAX_RETRIES) none

/-- Embedding of `uc_client.LLMClient.send_prompt`: navigate, locate the
input (`_find_element`), fill, locate the submit control (`_find_clickable`),
then stream — one single pipeline with no try/except around it, so any
exception propagates to the caller directly.  A failed locate raises
`NoSuchElementException` with the selectors in the message. -/
def ucSendPrompt {E : Type} (pg : UcPage E) (inputSelectors submitSelectors : List String)
    (stream : Except SendErr String) : Except SendErr String :=
  match findElement pg inputSelectors 10 with
  | .error _ =>
    .error (.noSuchElement ("Could not find element with selectors: " ++
      String.intercalate ", " inputSelectors))
  | .ok _ =>
    match findClickable pg submitSelectors 5 with
    | .error _ =>
      .error (.noSuchElement ("Could not find clickable element: " ++
        String.intercalate ", " submitSelectors))
    | .ok _ => stream

/-- The uc page for the C5 counterexample: no selector ever matches. -/
def ucPageFail : UcPage Nat := ⟨fun _ _ => none, fun _ _ => none⟩

/-- Counterexample to C5 as stated: in the uc client, `send_prompt` performs
no retry at all — an element-not-found failure propagates immediately as the
raw `NoSuchElementException` after a single pass, not as a wrapping
`LLMClientError` after 3 attempts with backoff, contradicting the claim for
"every send_prompt call". -/
theorem claim_C5_counterexample :
    ucSendPrompt ucPageFail ["textarea"] ["button"] (.ok "resp") =
      .error (.noSuchElement "Could not find element with selectors: textarea") ∧
    SendErr.noSuchElement "Could not find element with selectors: textarea" ≠
      SendErr.failedAfter 3
        (some (.noSuchElement "Could not find element with selectors: textarea")) := by
  constructor
  · rfl
  · intro h
    exact SendErr.noConfusion h

/-- C5 (amended): in the playwright client, `send_prompt` retries the whole
navigate/locate/fill/submit/stream unit on `SelectorNotFoundError` or
`PlaywrightTimeout`, up to `MAX_RETRIES = 3` attempts, sleeping
`RETRY_DELAY_BASE * 2 ** attempt + jitter` and reloading the page between
attempts; exhausting all attempts raises a wrapping `LLMClientError` carrying
the last underlying cause, and an exception of any other type is not retried
and propagates immediately.  The uc client's `send_prompt` instead performs a
single attempt with no retry, backoff, or reload: its pipeline's exception
propagates directly to the caller. -/
theorem claim_C5_amended (jitter : Nat → Rat) (impl : Nat → Except SendErr String) :
    (∀ s, impl 0 = .ok s →
      sendPromptWithRetry jitter impl = (.ok s, [.attemptStart 0])) ∧
    (∀ e0 s, impl 0 = .error e0 → Retryable e0 = true → impl 1 = .ok s →
      sendPromptWithRetry jitter impl =
        (.ok s, [.attemptStart 0, .backoff (RETRY_DELAY_BASE * 2 ^ 0 + jitter 0),
          .reload, .attemptStart 1])) ∧
    (∀ e0 e1 s, impl 0 = .error e0 → Retryable e0 = true →
      impl 1 = .error e1 → Retryable e1 = true → impl 2 = .ok s →
      sendPromptWithRetry jitter impl =
        (.ok s, [.attemptStart 0, .backoff (RETRY_DELAY_BASE * 2 ^ 0 + jitter 0),
          .reload, .attemptStart 1, .backoff (RETRY_DELAY_BASE * 2 ^ 1 + jitter 1),
          .reload, .attemptStart 2])) ∧
    (∀ e0 e1 e2, impl 0 = .error e0 → Retryable e0 = true →
      impl 1 = .error e1 → Retryable e1 = true →
      impl 2 = .error e2 → Retryable e2 = true →
      sendPromptWithRetry jitter impl =
        (.error (.failedAfter 3 (some e2)),
         [.attemptStart 0, .backoff (RETRY_DELAY_BASE * 2 ^ 0 + jitter 0),
          .reload, .attemptStart 1, .backoff (RETRY_DELAY_BASE * 2 ^ 1 + jitter 1),
          .reload, .attemptStart 2])) ∧
    (∀ e, impl 0 = .error e → Retryable e = false →
      sendPromptWithRetry jitter impl = (.error e, [.attemptStart 0])) ∧
    (∀ e0 e1, impl 0 = .error e0 → Retryable e0 = true →
      impl 1 = .error e1 → Retryable e1 = false →
      sendPromptWithRetry jitter impl =
        (.error e1, [.attemptStart 0, .backoff (RETRY_DELAY_BASE * 2 ^ 0 + jitter 0),
          .reload, .attemptStart 1])) ∧
    (∀ (E : Type) (pg : UcPage E) (iSels sSels : List String)
        (stream : Except SendErr String),
      (findElement pg iSels 10 = .error () →
        ucSendPrompt pg iSels sSels stream =
          .error (.noSuchElement ("Could not find element with selectors: " ++
            String.intercalate ", " iSels))) ∧
      (∀ ei es, findElement pg iSels 10 = .ok ei → findClickable pg sSels 5 = .ok es →
        ucSendPrompt pg iSels sSels stream = stream)) := by
  have hrange : List.range MAX_RETRIES = [0, 1, 2] := rfl
  refine ⟨?_, ?_, ?_, ?_, ?_, ?_, ?_⟩
  · intro s h0
    simp [sendPromptWithRetry, hrange, retryGo, h0]
  · intro e0 s h0 hr0 h1
    simp [sendPromptWithRetry, hrange, retryGo, h0, hr0, h1]
  · intro e0 e1 s h0 hr0 h1 hr1 h2
    simp [sendPromptWithRetry, hrange, retryGo, h0, hr0, h1, hr1, h2]
  · intro e0 e1 e2 h0 hr0 h1 hr1 h2 hr2
    simp [sendPromptWithRetry, hrange, retryGo, h0, hr0, h1, hr1, h2, hr2, MAX_RETRIES]
  · intro e h0 hr
    simp [sendPromptWithRetry, hrange, retryGo, h0, hr]
  · intro e0 e1 h0 hr0 h1 hr1
    simp [sendPromptWithRetry, hrange, retryGo, h0, hr0, h1, hr1]
  · intro E pg iSels sSels stream
    constructor
    · intro h
      simp [ucSendPrompt, h]
    · intro ei es h1 h2
      simp [ucSendPrompt, h1, h2]

/-- Witness for the amended C5: a run whose first attempt raises a
`SelectorNotFoundError` and whose second succeeds retries exactly once with
the exponential-backoff sleep and a reload in between. -/
theorem claim_C5_witness :
    sendPromptWithRetry (fun _ => (1 : Rat) / 2)
        (fun n => if n = 0 then .error (.selectorNotFound "input field") else .ok "done") =
      (.ok "done", [.attemptStart 0,
        .backoff (RETRY_DELAY_BASE * 2 ^ 0 + (fun _ : Nat => (1 : Rat) / 2) 0),
        .reload, .attemptStart 1]) :=
  (claim_C5_amended (fun _ => (1 : Rat) / 2)
      (fun n => if n = 0 then .error (.selectorNotFound "input field") else .ok "done")).2.1
    (.selectorNotFound "input field") "done" rfl rfl rfl

/-! ## Orchestrator start (`DebateOrchestrator.start`)

Embedding of playwright_client.py lines 552-566 and uc_client.py lines
289-311.  Starting one client is abstracted by its outcome (`Except PyExc
Unit`); the start list pairs each target name with that outcome.  The
playwright orchestrator starts clients in a plain sequential `for` loop with
no exception handling, so the first failure propagates out of `start` and the
remaining clients are never started; `self.clients` then holds the prefix
started before the failure.  The uc orchestrator submits all starts to a
thread pool and collects `as_completed` futures inside a try/except, so each
failure is caught and reported and `self.clients` ends up holding exactly the
successful subset (in a nondeterministic completion order, modeled here in
submission order; only order-independent properties are stated). -/

/-- Embedding of the playwright `start` loop: returns the clients map (as the
list of successfully started names) together with the propagated exception,
if any. -/
def pwOrchStart : List (String × Except PyExc Unit) → List String × Option PyExc
  | [] => ([], none)
  | (n, .ok _) :: rest =>
    let r := pwOrchStart rest
    (n :: r.1, r.2)
  | (_, .error e) :: _ => ([], some e)

/-- Embedding of the uc `start`: each completed future is collected under a
try/except, a failure only printing a report. -/
def ucOrchStart (starts : List (String × Except PyExc Unit)) : List String :=
  starts.foldl
    (fun acc c => match c.2 with
      | .ok _ => acc ++ [c.1]
      | .error _ => acc) []

/-- Counterexample to C8 as stated: with three targets whose middle client
fails to start, the playwright orchestrator's `start` propagates the failure
(the claim says it is caught and reported) and `"gemini"`, whose start would
succeed, is never started — the orchestrator is left holding only the prefix
`["claude"]`, not the full successful subset `["claude", "gemini"]`. -/
theorem claim_C8_counterexample :
    pwOrchStart [("claude", .ok ()),
        ("chatgpt", .error (PyExc.mk "WebDriverException" "launch failed")),
        ("gemini", .ok ())] =
      (["claude"], some (PyExc.mk "WebDriverException" "launch failed")) ∧
    ("gemini" : String) ∉ (["claude"] : List String) := by
  constructor
  · rfl
  · decide

theorem ucOrchStart_go (starts : List (String × Except PyExc Unit)) :
    ∀ acc, starts.foldl
        (fun acc c => match c.2 with
          | .ok _ => acc ++ [c.1]
          | .error _ => acc) acc =
      acc ++ (starts.filter fun c => c.2.isOk).map Prod.fst := by
  induction starts with
  | nil => intro acc; simp
  | cons c rest ih =>
    intro acc
    match hc : c.2 with
    | .ok u =>
      simp only [List.foldl_cons, hc, List.filter_cons]
      rw [ih (acc ++ [c.1])]
      simp [Except.isOk, Except.toBool]
    | .error e =>
      simp only [List.foldl_cons, hc, List.filter_cons]
      rw [ih acc]
      simp [Except.isOk, Except.toBool]

/-- C8 (amended): the uc orchestrator's `start` starts one client per target
concurrently, catches each start failure, and afterwards holds exactly the
names whose start succeeded (a name is held iff its start succeeded, with one
entry per success); the playwright orchestrator's `start` is sequential and
unguarded: when every start succeeds it holds all targets, but the first
failure propagates out of `start` and it is left holding exactly the prefix of
targets started before the failure. -/
theorem claim_C8_start_isolation (starts : List (String × Except PyExc Unit)) :
    (ucOrchStart starts = (starts.filter fun c => c.2.isOk).map Prod.fst) ∧
    (∀ n : String, n ∈ ucOrchStart starts ↔
      ∃ c ∈ starts, c.1 = n ∧ c.2 = .ok ()) ∧
    ((∀ c ∈ starts, c.2 = .ok ()) →
      pwOrchStart starts = (starts.map Prod.fst, none)) ∧
    (∀ (pre post : List (String × Except PyExc Unit)) (n : String) (e : PyExc),
      (∀ c ∈ pre, c.2 = .ok ()) →
      pwOrchStart (pre ++ (n, .error e) :: post) = (pre.map Prod.fst, some e)) := by
  refine ⟨ucOrchStart_go starts [], ?_, ?_, ?_⟩
  · intro n
    rw [show ucOrchStart starts =
      (starts.filter fun c => c.2.isOk).map Prod.fst from ucOrchStart_go starts []]
    simp only [List.mem_map, List.mem_filter]
    constructor
    · rintro ⟨c, ⟨hc, hok⟩, hn⟩
      refine ⟨c, hc, hn, ?_⟩
      match hc2 : c.2 with
      | .ok u => rfl
      | .error e => rw [hc2] at hok; simp [Except.isOk, Except.toBool] at hok
    · rintro ⟨c, hc, hn, hok⟩
      exact ⟨c, ⟨hc, by rw [hok]; rfl⟩, hn⟩
  · intro h
    induction starts with
    | nil => rfl
    | cons c rest ih =>
      have hc : c.2 = .ok () := h c (List.mem_cons_self c rest)
      match c with
      | (n, r) =>
        simp only at hc
        subst hc
        simp only [pwOrchStart, List.map_cons]
        rw [ih (fun q hq => h q (List.mem_cons_of_mem _ hq))]
  · intro pre post n e hpre
    induction pre with
    | nil => rfl
    | cons c rest ih =>
      have hc : c.2 = .ok () := hpre c (List.mem_cons_self c rest)
      match c with
      | (m, r) =>
        simp only at hc
        subst hc
        simp only [List.cons_append, pwOrchStart, List.map_cons, List.append_eq]
        rw [ih (fun q hq => hpre q (List.mem_cons_of_mem _ hq))]

/-- Witness for the amended C8 on the concrete three-target scenario: the uc
orchestrator retains exactly the successful subset while the playwright
orchestrator, with the same outcomes, stops at the failure. -/
theorem claim_C8_witness :
    ucOrchStart [("claude", .ok ()),
        ("chatgpt", .error (PyExc.mk "WebDriverException" "launch failed")),
        ("gemini", .ok ())] =
      (([("claude", Except.ok ()),
        ("chatgpt", Except.error (PyExc.mk "WebDriverException" "launch failed")),
        ("gemini", Except.ok ())].filter fun c => c.2.isOk).map Prod.fst) ∧
    pwOrchStart [("claude", .ok ()),
        ("chatgpt", .error (PyExc.mk "WebDriverException" "launch failed")),
        ("gemini", .ok ())] =
      ([("claude", (Except.ok () : Except PyExc Unit))].map Prod.fst,
       some (PyExc.mk "WebDriverException" "launch failed")) :=
  ⟨(claim_C8_start_isolation [("claude", .ok ()),
      ("chatgpt", .error (PyExc.mk "WebDriverException" "launch failed")),
      ("gemini", .ok ())]).1,
   (claim_C8_start_isolation [("claude", .ok ()),
      ("chatgpt", .error (PyExc.mk "WebDriverException" "launch failed")),
      ("gemini", .ok ())]).2.2.2
     [("claude", .ok ())] [("gemini", .ok ())] "chatgpt"
     (PyExc.mk "WebDriverException" "launch failed")
     (by intro c hc; simp at hc; rw [hc])⟩
